import Mathlib

/-!
# Verification of the satoyamadogrun backend against its specification

Shallow embedding of the repository's data model (`models.py`), auth layer
(`auth.py`), request handlers (`main.py`), and utility functions
(`utils.py`), together with theorems settling the frozen claims about the
specification.

Conventions of the embedding:
* Machine time (`datetime.utcnow()` / `datetime.now()`) is passed explicitly
  as a `Nat` parameter `now`; token expiries are counted in minutes.
* The SQLAlchemy session is modelled as an explicit record of committed rows
  (`DB`); `db.commit()` is the point where the model state changes, and the
  `onupdate=datetime.utcnow` column options of `models.py` are applied to a
  row whenever a commit writes it.
* The bcrypt primitive (`passlib`) is abstracted as function parameters
  `hp : String → String` (hashing) and `vp : String → String → Bool`
  (verification), exactly as the spec declares them external collaborators.
* The JWT primitive is abstracted to its payload: a token is its claim list
  plus its expiry minute; signing is the identity on this payload.
* Python exceptions escaping a handler are the `Resp.exn` outcome; an
  `HTTPException(status, detail)` is `Resp.http status detail`.
* SQLAlchemy's declarative constructor (`User(**kwargs)` etc.) raises
  `TypeError` when a keyword is not a mapped attribute of the class; the
  embedding records each class's mapped attribute names (columns and
  relationships of `models.py`) and each call site's keyword names, and
  checks the former contains the latter, exactly as the library does.
-/

/-! ## Outcomes -/

/-- Outcome of a handler or dependency: a successful value, an
`HTTPException(status_code, detail)`, or an uncaught Python exception. -/
inductive Resp (α : Type) where
  | ok (a : α)
  | http (status : Nat) (detail : String)
  | exn (name : String)
deriving DecidableEq

/-! ## Data model (`models.py`) -/

/-- A committed row of the `users` table (`models.py` lines 11–27). -/
structure UserRow where
  id : Nat
  email : String
  hashed_password : String
  full_name : String
  address : String
  phone_number : String
  imabari_residency : String
  created_at : Nat
  updated_at : Nat
deriving DecidableEq

/-- A committed row of the `dogs` table (`models.py` lines 29–43). -/
structure DogRow where
  id : Nat
  name : String
  breed : String
  weight : String
  personality : List String
  last_vaccination_date : String
  owner_id : Nat
  created_at : Nat
  updated_at : Nat
deriving DecidableEq

/-- A committed row of the `posts` table (`models.py` lines 45–59). -/
structure PostRow where
  id : Nat
  content : String
  tag : String
  hashtags : Option String
  likes : Nat
  user_id : Nat
  created_at : Nat
  updated_at : Nat
deriving DecidableEq

/-- The committed database state. -/
structure DB where
  users : List UserRow
  dogs : List DogRow
  posts : List PostRow
deriving DecidableEq

/-- The empty database. -/
def emptyDB : DB := ⟨[], [], []⟩

/-- `db.query(User).filter(User.email == e).first()`. -/
def findUserByEmail (db : DB) (e : String) : Option UserRow :=
  db.users.find? (fun u => u.email == e)

/-- `db.query(Post).filter(Post.id == pid).first()`. -/
def findPostById (db : DB) (pid : Nat) : Option PostRow :=
  db.posts.find? (fun p => p.id == pid)

/-- The mapped attribute names of the `User` class: its columns
(`models.py` lines 14–22) and relationships (lines 25–27).  SQLAlchemy's
declarative constructor accepts exactly these as keywords. -/
def userAttrNames : List String :=
  ["id", "email", "hashed_password", "full_name", "address", "phone_number",
   "imabari_residency", "created_at", "updated_at", "dogs", "posts", "comments"]

/-- The mapped attribute names of the `Dog` class (`models.py` lines 32–43). -/
def dogAttrNames : List String :=
  ["id", "name", "breed", "weight", "personality", "last_vaccination_date",
   "owner_id", "created_at", "updated_at", "owner"]

/-! ## Request shapes (`schemas.py`) -/

/-- `schemas.LoginRequest`. -/
structure LoginRequest where
  email : String
  password : String

/-- `schemas.RegisterRequest` (lines 10–21). -/
structure RegisterRequest where
  email : String
  password : String
  full_name : String
  address : String
  phone_number : String
  imabari_residency : String
  application_date : String
  dog_name : String
  dog_breed : String
  dog_weight : String
  dog_birth_year : Int

/-- `schemas.UpdateUserProfileRequest` (lines 24–28). -/
structure UpdateUserProfileRequest where
  full_name : String
  address : String
  phone_number : String
  imabari_residency : String

/-! ## Auth layer (`auth.py`) -/

/-- `auth.ACCESS_TOKEN_EXPIRE_MINUTES` (`auth.py` line 19); the same value is
`settings.access_token_expire_minutes` in `config.py` line 26. -/
def ACCESS_TOKEN_EXPIRE_MINUTES : Nat := 30

/-- The payload a signed access token carries: the caller's claims plus the
`exp` timestamp (in minutes) that `create_access_token` adds. -/
structure TokenPayload where
  claims : List (String × String)
  exp : Nat
deriving DecidableEq

/-- The `{"access_token": ..., "token_type": "bearer"}` response body. -/
structure TokenResponse where
  access_token : TokenPayload
  token_type : String
deriving DecidableEq

/-- `auth.create_access_token` (`auth.py` lines 35–44): copies the claims and
adds `exp = now + expires_delta` when a delta is supplied, else
`exp = now + 15` minutes (`timedelta(minutes=15)`), then signs.  The signing
step is abstracted away, so the token is its payload. -/
def create_access_token (data : List (String × String))
    (expires_delta : Option Nat) (now : Nat) : TokenPayload :=
  { claims := data, exp := now + expires_delta.getD 15 }

/-- The active `auth.get_current_user` (`auth.py` lines 83–109).  It takes no
credentials at all: it looks up the user with email `"test@example.com"` and
returns it; when that user is absent it evaluates
`User(email=..., user_name=..., owner_name=..., dog_name=..., ...)`, whose
keywords `user_name`, `owner_name`, `dog_name`, `dog_breed`, `dog_gender`,
`dog_age`, `owner_tel`, `owner_address`, `registration_date`, `is_approved`,
`is_admin` are not mapped attributes of `User` (`models.py` lines 11–27), so
the declarative constructor raises `TypeError` before anything is added or
committed. -/
def get_current_user (db : DB) : Resp UserRow :=
  match findUserByEmail db "test@example.com" with
  | some u => Resp.ok u
  | none =>
    if ["email", "hashed_password", "user_name", "owner_name", "dog_name",
        "dog_breed", "dog_gender", "dog_age", "owner_tel", "owner_address",
        "registration_date", "is_approved", "is_admin"].all
        (fun k => userAttrNames.contains k) then
      Resp.http 500 "unreachable"
    else
      Resp.exn "TypeError"

/-! ## Handlers (`main.py`) -/

/-- Uniform login failure (`main.py` line 90). -/
def loginFailDetail : String := "メールアドレスまたはパスワードが正しくありません"

/-- Duplicate-email failure raised by `register` (`main.py` line 54). -/
def duplicateEmailDetail : String := "このメールアドレスは既に登録されています"

/-- `POST /auth/login` (`main.py` lines 85–93).  `vp` is the bcrypt
`verify_password` collaborator.  The same `HTTPException(401, ...)` is raised
whether the email is unknown or the password fails to verify. -/
def login (vp : String → String → Bool) (db : DB) (req : LoginRequest)
    (now : Nat) : Resp TokenResponse :=
  match findUserByEmail db req.email with
  | none => Resp.http 401 loginFailDetail
  | some u =>
    if vp req.password u.hashed_password then
      Resp.ok { access_token := create_access_token [("sub", u.email)] none now,
                token_type := "bearer" }
    else
      Resp.http 401 loginFailDetail

/-- The keyword names of the `User(...)` call in `register`
(`main.py` lines 57–65). -/
def registerUserKwargNames : List String :=
  ["email", "hashed_password", "full_name", "address", "phone_number",
   "imabari_residency", "application_date"]

/-- The keyword names of the `Dog(...)` call in `register`
(`main.py` lines 71–77). -/
def registerDogKwargNames : List String :=
  ["name", "breed", "weight", "birth_year", "owner_id"]

/-- The primary key the storage layer would assign to the next inserted user. -/
def nextUserId (db : DB) : Nat := db.users.length + 1

/-- The primary key the storage layer would assign to the next inserted dog. -/
def nextDogId (db : DB) : Nat := db.dogs.length + 1

/-- `POST /auth/register` (`main.py` lines 48–83).  `hp` is the bcrypt
`get_password_hash` collaborator.  The handler checks for a duplicate email
(400), then evaluates `User(..., application_date=...)` — whose keyword
`application_date` is not a mapped attribute of `User`, so the constructor
raises `TypeError` — and would otherwise commit the user, evaluate
`Dog(..., birth_year=...)` — whose keyword `birth_year` is not a mapped
attribute of `Dog`, raising `TypeError` after the user's commit — and finally
commit the dog and issue a token.  Note the two inserts sit in two separate
`db.commit()` calls (lines 67 and 79). -/
def register (hp : String → String) (db : DB) (req : RegisterRequest)
    (now : Nat) : Resp TokenResponse × DB :=
  match findUserByEmail db req.email with
  | some _ => (Resp.http 400 duplicateEmailDetail, db)
  | none =>
    if registerUserKwargNames.all (fun k => userAttrNames.contains k) then
      let user : UserRow :=
        { id := nextUserId db, email := req.email,
          hashed_password := hp req.password, full_name := req.full_name,
          address := req.address, phone_number := req.phone_number,
          imabari_residency := req.imabari_residency,
          created_at := now, updated_at := now }
      let db1 : DB := { db with users := db.users ++ [user] }
      if registerDogKwargNames.all (fun k => dogAttrNames.contains k) then
        -- provably unreachable (`birth_year` is not a Dog attribute); the
        -- unpassed columns carry their storage defaults here
        let dog : DogRow :=
          { id := nextDogId db1, name := req.dog_name, breed := req.dog_breed,
            weight := req.dog_weight, personality := [],
            last_vaccination_date := "", owner_id := user.id,
            created_at := now, updated_at := now }
        let db2 : DB := { db1 with dogs := db1.dogs ++ [dog] }
        (Resp.ok { access_token := create_access_token [("sub", user.email)] none now,
                   token_type := "bearer" }, db2)
      else
        (Resp.exn "TypeError", db1)
    else
      (Resp.exn "TypeError", db)

/-- The assignments of `PUT /users/profile` (`main.py` lines 118–121) as
committed: the four request fields are written, and the commit applies the
`updated_at` `onupdate=datetime.utcnow` column option of `models.py` line 22
to the written row. -/
def applyProfileUpdate (req : UpdateUserProfileRequest) (now : Nat)
    (u : UserRow) : UserRow :=
  { u with full_name := req.full_name, address := req.address,
           phone_number := req.phone_number,
           imabari_residency := req.imabari_residency, updated_at := now }

/-- The handler body of `PUT /users/profile`: the four assignments, the
commit, and the refreshed row returned through `UserResponse.from_orm`. -/
def update_user_profile (db : DB) (current_user : UserRow)
    (req : UpdateUserProfileRequest) (now : Nat) : UserRow × DB :=
  (applyProfileUpdate req now current_user,
   { db with users := db.users.map (fun u =>
       if u.id == current_user.id then applyProfileUpdate req now u else u) })

/-- `POST /posts/{post_id}/like` (`main.py` lines 228–242): 404 when no post
has the id, else `post.likes += 1` and commit (which also applies the
`updated_at` onupdate option to the written row). -/
def like_post (db : DB) (post_id : Nat) (now : Nat) : Resp String × DB :=
  match findPostById db post_id with
  | none => (Resp.http 404 "投稿が見つかりません", db)
  | some _ =>
    (Resp.ok "いいねしました",
     { db with posts := db.posts.map (fun p =>
         if p.id == post_id then { p with likes := p.likes + 1, updated_at := now } else p) })

/-- The like count of the post `first()` would return for `pid`. -/
def likesOf (db : DB) (pid : Nat) : Option Nat :=
  (findPostById db pid).map (fun p => p.likes)

/-! ## Helper lemmas on `find?` over the like-increment map -/

/-- Bumping the liked post preserves `find?` for its own id: the found row is
the bumped original. -/
theorem find_map_bump_eq (l : List PostRow) (pid now : Nat) :
    (l.map (fun p => if p.id == pid then { p with likes := p.likes + 1, updated_at := now } else p)).find?
        (fun p => p.id == pid)
      = (l.find? (fun p => p.id == pid)).map
          (fun p => { p with likes := p.likes + 1, updated_at := now }) := by
  induction l with
  | nil => rfl
  | cons a l ih =>
    by_cases ha : a.id = pid
    · rw [List.map_cons, List.find?_cons_of_pos _ (by simp [ha]),
        List.find?_cons_of_pos _ (by simpa using ha)]
      simp [ha]
    · rw [List.map_cons, List.find?_cons_of_neg _ (by simp [ha]),
        List.find?_cons_of_neg _ (by simpa using ha)]
      exact ih

/-- Bumping the liked post preserves `find?` for every other id. -/
theorem find_map_bump_ne (l : List PostRow) (pid q now : Nat) (hq : q ≠ pid) :
    (l.map (fun p => if p.id == pid then { p with likes := p.likes + 1, updated_at := now } else p)).find?
        (fun p => p.id == q)
      = l.find? (fun p => p.id == q) := by
  induction l with
  | nil => rfl
  | cons a l ih =>
    have hne : a.id = pid → a.id ≠ q := fun h1 h2 => hq (h2 ▸ h1 ▸ rfl)
    by_cases ha : a.id = pid
    · rw [List.map_cons, List.find?_cons_of_neg _ (by simp [ha]; exact Ne.symm hq),
        List.find?_cons_of_neg _ (by simpa using hne ha)]
      exact ih
    · by_cases h2 : a.id = q
      · rw [List.map_cons, List.find?_cons_of_pos _ (by simp [ha, h2, hq]),
          List.find?_cons_of_pos _ (by simpa using h2)]
        simp [ha]
      · rw [List.map_cons, List.find?_cons_of_neg _ (by simp [ha, h2]),
          List.find?_cons_of_neg _ (by simpa using h2)]
        exact ih

/-! ## Concrete sample data -/

/-- The hardcoded test identity the active `get_current_user` resolves to. -/
def testUser : UserRow :=
  { id := 1, email := "test@example.com", hashed_password := "x",
    full_name := "テストユーザー", address := "テスト県テスト市",
    phone_number := "09012345678", imabari_residency := "",
    created_at := 0, updated_at := 0 }

/-- A sample registration request with email `"a@b.com"`. -/
def regReq : RegisterRequest :=
  { email := "a@b.com", password := "pw1234ab", full_name := "山田太郎",
    address := "今治市", phone_number := "0901234567",
    imabari_residency := "yes", application_date := "2024-01-01",
    dog_name := "ポチ", dog_breed := "柴犬", dog_weight := "8kg",
    dog_birth_year := 2020 }

/-- A stored user with email `"a@b.com"` whose password hash is `"pw"` under
the test collaborator `vp p h := p == h`. -/
def userA : UserRow :=
  { id := 1, email := "a@b.com", hashed_password := "pw", full_name := "",
    address := "", phone_number := "", imabari_residency := "",
    created_at := 0, updated_at := 0 }

/-! ## C1 -/

/-- C1: the claim says every protected handler resolves the caller by
verifying the presented bearer token and rejects unverifiable tokens as
unauthenticated.  The code's `get_current_user` takes no credentials at all:
with the test user present it returns that user (so any request, bearer token
or not, is authenticated as `test@example.com`), with it absent it raises
`TypeError` from the invalid `User(...)` keywords, and no execution ever
produces the 401 outcome the claim requires. -/
theorem get_current_user_bypasses_bearer_token :
    get_current_user ⟨[testUser], [], []⟩ = Resp.ok testUser ∧
    get_current_user emptyDB = Resp.exn "TypeError" ∧
    ∀ (db : DB) (detail : String), get_current_user db ≠ Resp.http 401 detail := by
  refine ⟨by decide, by decide, fun db detail h => ?_⟩
  unfold get_current_user at h
  cases hf : findUserByEmail db "test@example.com" with
  | some u => rw [hf] at h; exact Resp.noConfusion h
  | none =>
    rw [hf] at h
    have hc : (["email", "hashed_password", "user_name", "owner_name", "dog_name",
        "dog_breed", "dog_gender", "dog_age", "owner_tel", "owner_address",
        "registration_date", "is_approved", "is_admin"].all
        (fun k => userAttrNames.contains k)) = false := by decide
    rw [hc] at h
    simp at h

/-! ## C2 -/

/-- C2: the claim says registration's two inserts commit atomically.  In the
code the `User(...)` call passes `application_date`, which is not a mapped
attribute of `User`, so every registration attempt with a fresh email raises
`TypeError` before any commit, and no register call can ever return a token:
the success path the claim describes is unreachable (and, were the `User`
constructor repaired, the `Dog(birth_year=...)` call would raise after the
user's separate commit, stranding a `User` without its `Dog`). -/
theorem register_never_commits_user_dog_pair :
    (∀ (hp : String → String) (db : DB) (req : RegisterRequest) (now : Nat)
        (tok : TokenResponse), (register hp db req now).1 ≠ Resp.ok tok) ∧
    register (fun p => p) emptyDB regReq 0 = (Resp.exn "TypeError", emptyDB) := by
  refine ⟨fun hp db req now tok h => ?_, by decide⟩
  unfold register at h
  cases hf : findUserByEmail db req.email with
  | some u => rw [hf] at h; simp at h
  | none =>
    rw [hf] at h
    have hc : (registerUserKwargNames.all (fun k => userAttrNames.contains k)) = false := by
      decide
    rw [hc] at h
    simp at h

/-! ## C3 -/

/-- C3: whether the email matches no stored user or the password fails to
verify, `login` fails with the same `HTTPException(401, ...)` carrying the
same detail string, so the two failure cases are observationally identical. -/
theorem login_uniform_auth_error
    (vp : String → String → Bool) (db1 db2 : DB) (req1 req2 : LoginRequest)
    (now1 now2 : Nat) (u : UserRow)
    (h1 : findUserByEmail db1 req1.email = none)
    (h2 : findUserByEmail db2 req2.email = some u)
    (h3 : vp req2.password u.hashed_password = false) :
    login vp db1 req1 now1 = Resp.http 401 loginFailDetail ∧
    login vp db2 req2 now2 = Resp.http 401 loginFailDetail ∧
    login vp db1 req1 now1 = login vp db2 req2 now2 := by
  have e1 : login vp db1 req1 now1 = Resp.http 401 loginFailDetail := by
    unfold login; rw [h1]
  have e2 : login vp db2 req2 now2 = Resp.http 401 loginFailDetail := by
    unfold login
    rw [h2]
    show (if vp req2.password u.hashed_password = true then
        (Resp.ok { access_token := create_access_token [("sub", u.email)] none now2,
                   token_type := "bearer" } : Resp TokenResponse)
      else Resp.http 401 loginFailDetail) = Resp.http 401 loginFailDetail
    rw [if_neg (by simp [h3])]
  exact ⟨e1, e2, e1.trans e2.symm⟩

/-- Witness for C3 at a concrete database: an unknown email and a wrong
password produce the same 401 outcome. -/
theorem login_uniform_auth_error_witness :
    findUserByEmail ⟨[userA], [], []⟩ "nobody@example.com" = none ∧
    findUserByEmail ⟨[userA], [], []⟩ "a@b.com" = some userA ∧
    ((fun p h => p == h) "wrong" userA.hashed_password) = false ∧
    login (fun p h => p == h) ⟨[userA], [], []⟩ ⟨"nobody@example.com", "x"⟩ 0 =
      Resp.http 401 loginFailDetail ∧
    login (fun p h => p == h) ⟨[userA], [], []⟩ ⟨"a@b.com", "wrong"⟩ 3 =
      Resp.http 401 loginFailDetail := by
  have h := login_uniform_auth_error (fun p h => p == h)
    ⟨[userA], [], []⟩ ⟨[userA], [], []⟩ ⟨"nobody@example.com", "x"⟩
    ⟨"a@b.com", "wrong"⟩ 0 3 userA (by decide) (by decide) (by decide)
  exact ⟨by decide, by decide, by decide, h.1, h.2.1⟩

/-! ## C6 -/

/-- C6: the claim says the second of two same-email registrations fails with
Conflict (409) and one `User` persists.  In the code both calls raise
`TypeError` (`application_date` is not a `User` attribute) and zero users
persist; moreover the duplicate-email branch that would fire raises
`HTTPException(400, ...)` — the generic validation status, not 409 Conflict. -/
theorem register_twice_same_email_behavior :
    (register (fun p => p) emptyDB regReq 0).1 = Resp.exn "TypeError" ∧
    (register (fun p => p) (register (fun p => p) emptyDB regReq 0).2 regReq 1).1 =
      Resp.exn "TypeError" ∧
    ((register (fun p => p) (register (fun p => p) emptyDB regReq 0).2 regReq 1).2.users.filter
        (fun u => u.email == "a@b.com")).length = 0 ∧
    (register (fun p => p) ⟨[userA], [], []⟩ regReq 0).1 =
      Resp.http 400 duplicateEmailDetail ∧
    (400 : Nat) ≠ 409 := by decide

/-! ## C7 -/

/-- C7 counterexample: `create_access_token` without a ttl does default to 15
minutes, but `login` (which passes no `expires_delta`) therefore issues a
token expiring 15 minutes after issuance, not the 30 minutes the claim
asserts (`ACCESS_TOKEN_EXPIRE_MINUTES = 30` is never passed to it). -/
theorem issued_token_expiry_counterexample :
    (create_access_token [("sub", "a@b.com")] none 0).exp = 15 ∧
    login (fun p h => p == h) ⟨[userA], [], []⟩ ⟨"a@b.com", "pw"⟩ 0 =
      Resp.ok ⟨⟨[("sub", "a@b.com")], 15⟩, "bearer"⟩ ∧
    (15 : Nat) ≠ ACCESS_TOKEN_EXPIRE_MINUTES := by decide

/-- C7 (amended): a token created without a caller-supplied ttl expires
`now + 15` minutes, and every token the login handler issues also expires 15
minutes after issuance, because `login` never passes an `expires_delta`
(register raises `TypeError` before reaching token issuance, see C2). -/
theorem token_expiry_default_and_login (data : List (String × String)) (now : Nat)
    (vp : String → String → Bool) (db : DB) (req : LoginRequest) (now' : Nat)
    (tok : TokenResponse) (h : login vp db req now' = Resp.ok tok) :
    (create_access_token data none now).exp = now + 15 ∧
    tok.access_token.exp = now' + 15 := by
  refine ⟨rfl, ?_⟩
  unfold login at h
  cases hf : findUserByEmail db req.email with
  | none => rw [hf] at h; simp at h
  | some u =>
    rw [hf] at h
    have h' : (if vp req.password u.hashed_password = true then
        Resp.ok { access_token := create_access_token [("sub", u.email)] none now',
                  token_type := "bearer" }
      else Resp.http 401 loginFailDetail) = Resp.ok tok := h
    by_cases hv : vp req.password u.hashed_password = true
    · rw [if_pos hv] at h'
      cases h'
      rfl
    · rw [if_neg hv] at h'
      simp at h'

/-- Witness for C7's amended statement at a concrete login. -/
theorem token_expiry_default_and_login_witness :
    login (fun p h => p == h) ⟨[userA], [], []⟩ ⟨"a@b.com", "pw"⟩ 7 =
      Resp.ok ⟨⟨[("sub", "a@b.com")], 22⟩, "bearer"⟩ ∧
    (create_access_token [] none 3).exp = 3 + 15 ∧
    (⟨⟨[("sub", "a@b.com")], 22⟩, "bearer"⟩ : TokenResponse).access_token.exp = 7 + 15 := by
  have h := token_expiry_default_and_login [] 3 (fun p h => p == h)
    ⟨[userA], [], []⟩ ⟨"a@b.com", "pw"⟩ 7
    ⟨⟨[("sub", "a@b.com")], 22⟩, "bearer"⟩ (by decide)
  exact ⟨by decide, h.1, h.2⟩

/-! ## C8 -/

/-- One like-post call on an existing post: its like count becomes `n + 1`
and every other post id keeps its like count. -/
theorem like_post_step (db : DB) (pid now n : Nat)
    (h : likesOf db pid = some n) :
    likesOf (like_post db pid now).2 pid = some (n + 1) ∧
    ∀ q, q ≠ pid → likesOf (like_post db pid now).2 q = likesOf db q := by
  unfold likesOf at h
  cases hf : findPostById db pid with
  | none => rw [hf] at h; simp at h
  | some p =>
    rw [hf] at h
    simp only [Option.map_some'] at h
    have hp : p.likes = n := by injection h
    unfold like_post
    rw [hf]
    constructor
    · show ((DB.posts ⟨db.users, db.dogs, db.posts.map (fun p =>
          if p.id == pid then { p with likes := p.likes + 1, updated_at := now } else p)⟩).find?
          (fun p => p.id == pid)).map (fun p => p.likes) = some (n + 1)
      rw [show (DB.posts ⟨db.users, db.dogs, db.posts.map (fun p =>
          if p.id == pid then { p with likes := p.likes + 1, updated_at := now } else p)⟩) =
          db.posts.map (fun p =>
          if p.id == pid then { p with likes := p.likes + 1, updated_at := now } else p) from rfl]
      rw [find_map_bump_eq]
      unfold findPostById at hf
      rw [hf]
      simp [hp]
    · intro q hq
      show ((db.posts.map (fun p =>
          if p.id == pid then { p with likes := p.likes + 1, updated_at := now } else p)).find?
          (fun p => p.id == q)).map (fun p => p.likes) = likesOf db q
      rw [find_map_bump_ne _ _ _ _ hq]
      rfl

/-- C8: a successful like-post call on an existing post increments exactly
that post's like count by exactly 1 (every other post's count is untouched),
three sequential calls starting from `likes = 0` end at `likes = 3`, and a
call on a nonexistent post id returns 404 and leaves the database — hence
every like count — unchanged. -/
theorem like_post_claim (db : DB) (pid : Nat) :
    (∀ now n, likesOf db pid = some n →
        likesOf (like_post db pid now).2 pid = some (n + 1) ∧
        ∀ q, q ≠ pid → likesOf (like_post db pid now).2 q = likesOf db q) ∧
    (∀ t1 t2 t3, likesOf db pid = some 0 →
        likesOf (like_post (like_post (like_post db pid t1).2 pid t2).2 pid t3).2 pid =
          some 3) ∧
    (∀ now, findPostById db pid = none →
        like_post db pid now = (Resp.http 404 "投稿が見つかりません", db)) := by
  refine ⟨fun now n h => like_post_step db pid now n h, fun t1 t2 t3 h => ?_, fun now h => ?_⟩
  · have s1 := (like_post_step db pid t1 0 h).1
    have s2 := (like_post_step _ pid t2 1 s1).1
    have s3 := (like_post_step _ pid t3 2 s2).1
    exact s3
  · unfold like_post
    rw [h]

/-- A concrete database with two posts: post 1 with `likes = 0` and post 2
with `likes = 5`. -/
def dbPosts : DB :=
  ⟨[], [],
   [{ id := 1, content := "散歩", tag := "daily", hashtags := none, likes := 0,
      user_id := 1, created_at := 0, updated_at := 0 },
    { id := 2, content := "おやつ", tag := "daily", hashtags := none, likes := 5,
      user_id := 1, created_at := 0, updated_at := 0 }]⟩

/-- Witness for C8 at a concrete database: post 1 has `likes = 0`; one call
takes it to 1 while post 2 stays at 5, three calls take it to 3, and liking
the absent post 3 returns 404 with the database unchanged. -/
theorem like_post_claim_witness :
    likesOf dbPosts 1 = some 0 ∧
    likesOf (like_post dbPosts 1 9).2 1 = some 1 ∧
    likesOf (like_post dbPosts 1 9).2 2 = likesOf dbPosts 2 ∧
    likesOf (like_post (like_post (like_post dbPosts 1 7).2 1 8).2 1 9).2 1 = some 3 ∧
    like_post dbPosts 3 9 = (Resp.http 404 "投稿が見つかりません", dbPosts) := by
  have h := like_post_claim dbPosts 1
  have h1 := h.1 9 0 (by decide)
  exact ⟨by decide, h1.1, h1.2 2 (by decide), h.2.1 7 8 9 (by decide),
    (like_post_claim dbPosts 3).2.2 9 (by decide)⟩

/-! ## C10 -/

/-- A stored profile owner used for the C10 scenarios. -/
def profileUser : UserRow :=
  { id := 1, email := "u@example.com", hashed_password := "h",
    full_name := "旧名", address := "旧住所", phone_number := "000",
    imabari_residency := "yes", created_at := 0, updated_at := 0 }

/-- A profile-update request used for the C10 scenarios. -/
def profileReq : UpdateUserProfileRequest :=
  { full_name := "新名", address := "新住所", phone_number := "111",
    imabari_residency := "no" }

/-- C10 counterexample: the claim says every field of the caller's `User`
other than the four request fields is unchanged, but the commit also
refreshes `updated_at` (the `onupdate=datetime.utcnow` option on
`models.py` line 22): at this concrete input the stored `updated_at` moves
from 0 to 5. -/
theorem update_profile_changes_updated_at :
    (update_user_profile ⟨[profileUser], [], []⟩ profileUser profileReq 5).1.updated_at = 5 ∧
    profileUser.updated_at = 0 ∧
    ((update_user_profile ⟨[profileUser], [], []⟩ profileUser profileReq 5).2.users.find?
        (fun u => u.id == 1)).map (fun u => u.updated_at) = some 5 ∧
    (5 : Nat) ≠ 0 := by decide

/-- C10 (amended): the handler overwrites exactly `full_name`, `address`,
`phone_number` and `imabari_residency` on the caller's row; `email`,
`hashed_password`, `id` and `created_at` are unchanged, every user row with a
different id is untouched, dogs and posts are untouched, and no row is added
or dropped — but the storage layer's `onupdate` option also refreshes the
written row's `updated_at` to the commit time. -/
theorem update_profile_frame (db : DB) (cu : UserRow)
    (req : UpdateUserProfileRequest) (now : Nat) :
    (update_user_profile db cu req now).1.full_name = req.full_name ∧
    (update_user_profile db cu req now).1.address = req.address ∧
    (update_user_profile db cu req now).1.phone_number = req.phone_number ∧
    (update_user_profile db cu req now).1.imabari_residency = req.imabari_residency ∧
    (update_user_profile db cu req now).1.email = cu.email ∧
    (update_user_profile db cu req now).1.hashed_password = cu.hashed_password ∧
    (update_user_profile db cu req now).1.id = cu.id ∧
    (update_user_profile db cu req now).1.created_at = cu.created_at ∧
    (update_user_profile db cu req now).1.updated_at = now ∧
    (update_user_profile db cu req now).2.dogs = db.dogs ∧
    (update_user_profile db cu req now).2.posts = db.posts ∧
    (update_user_profile db cu req now).2.users.length = db.users.length ∧
    (∀ r ∈ db.users, r.id ≠ cu.id → r ∈ (update_user_profile db cu req now).2.users) ∧
    (∀ r ∈ db.users, r.id = cu.id →
        { r with full_name := req.full_name, address := req.address,
                 phone_number := req.phone_number,
                 imabari_residency := req.imabari_residency,
                 updated_at := now } ∈ (update_user_profile db cu req now).2.users) := by
  refine ⟨rfl, rfl, rfl, rfl, rfl, rfl, rfl, rfl, rfl, rfl, rfl,
    List.length_map _ _, fun r hr hne => ?_, fun r hr heq => ?_⟩
  · have himg : (fun u => if u.id == cu.id then applyProfileUpdate req now u else u) r = r := by
      simp [hne]
    exact himg ▸ List.mem_map_of_mem _ hr
  · have himg : (fun u => if u.id == cu.id then applyProfileUpdate req now u else u) r =
        { r with full_name := req.full_name, address := req.address,
                 phone_number := req.phone_number,
                 imabari_residency := req.imabari_residency, updated_at := now } := by
      simp [heq, applyProfileUpdate]
    exact himg ▸ List.mem_map_of_mem _ hr

/-- A second stored user, untouched by the C10 update. -/
def otherUser : UserRow :=
  { id := 2, email := "other@example.com", hashed_password := "h",
    full_name := "別名", address := "別住所", phone_number := "222",
    imabari_residency := "no", created_at := 0, updated_at := 0 }

/-- The two-user database for the C10 witness. -/
def dbProfiles : DB := ⟨[profileUser, otherUser], [], []⟩

/-- Witness for C10's amended statement at a concrete database with a second
user: the caller's row is rewritten (with `updated_at` refreshed), the other
user's row survives verbatim. -/
theorem update_profile_frame_witness :
    otherUser ∈ (update_user_profile dbProfiles profileUser profileReq 5).2.users ∧
    applyProfileUpdate profileReq 5 profileUser ∈
      (update_user_profile dbProfiles profileUser profileReq 5).2.users ∧
    (update_user_profile dbProfiles profileUser profileReq 5).1.email =
      profileUser.email := by
  have h := update_profile_frame dbProfiles profileUser profileReq 5
  refine ⟨?_, ?_, h.2.2.2.2.1⟩
  · exact h.2.2.2.2.2.2.2.2.2.2.2.2.1 otherUser (by simp [dbProfiles]) (by decide)
  · exact h.2.2.2.2.2.2.2.2.2.2.2.2.2 profileUser (by simp [dbProfiles]) rfl

/-! ## Python literal values and `ast.literal_eval` (`utils.py` entry codec)

`generate_qr_code_data` serialises a dict with `str(...)` and
`validate_qr_code_data` parses it back with `ast.literal_eval`.  The
embedding models Python literal values as `PyVal` and `literal_eval` as a
recursive-descent parser over the literal grammar fragment the codec
exercises: integers (with optional minus sign), single-quoted strings
without escape sequences (a backslash is treated as a parse failure, since
the codec never produces one), `True`/`False`/`None`, lists, and dicts with
string keys.  Parse failures stand for the `ValueError`/`SyntaxError`
exceptions that `validate_qr_code_data` catches. -/

/-- A parsed Python literal value. -/
inductive PyVal where
  | int (n : Int)
  | str (s : String)
  | boolean (b : Bool)
  | noneVal
  | list (xs : List PyVal)
  | dict (kvs : List (String × PyVal))

/-- Numeric value of a decimal digit character. -/
def digitVal (c : Char) : Nat := c.toNat - 48

/-- Value of a run of decimal digit characters, most significant first. -/
def digitsToNat (ds : List Char) : Nat :=
  ds.foldl (fun a c => 10 * a + digitVal c) 0

/-- Parse a nonempty run of decimal digits. -/
def parseNat (cs : List Char) : Option (Nat × List Char) :=
  if (cs.takeWhile Char.isDigit).isEmpty then none
  else some (digitsToNat (cs.takeWhile Char.isDigit), cs.dropWhile Char.isDigit)

/-- Characters allowed verbatim inside a single-quoted string literal:
anything but the closing quote and the (unmodelled) backslash escape. -/
def strKeep (c : Char) : Bool := c ≠ '\x27' && c ≠ '\\'

/-- Parse the body of a single-quoted string literal, after the opening
quote, up to and including the closing quote. -/
def parseStrLit (cs : List Char) : Option (String × List Char) :=
  match cs.dropWhile strKeep with
  | [] => none
  | c :: rest =>
    if c = '\x27' then some (String.mk (cs.takeWhile strKeep), rest) else none

/-- The tail of the keyword `True`. -/
def parseTrueKw (cs : List Char) : Option (PyVal × List Char) :=
  match cs with
  | 'r' :: 'u' :: 'e' :: r => some (PyVal.boolean true, r)
  | _ => none

/-- The tail of the keyword `False`. -/
def parseFalseKw (cs : List Char) : Option (PyVal × List Char) :=
  match cs with
  | 'a' :: 'l' :: 's' :: 'e' :: r => some (PyVal.boolean false, r)
  | _ => none

/-- The tail of the keyword `None`. -/
def parseNoneKw (cs : List Char) : Option (PyVal × List Char) :=
  match cs with
  | 'o' :: 'n' :: 'e' :: r => some (PyVal.noneVal, r)
  | _ => none

/-- Parse an atomic literal: string, signed integer, `True`, `False`,
`None`. -/
def parseAtom (cs : List Char) : Option (PyVal × List Char) :=
  match cs with
  | [] => none
  | c :: rest =>
    if c = '\x27' then
      (parseStrLit rest).map (fun p => (PyVal.str p.1, p.2))
    else if c = '-' then
      (parseNat rest).map (fun p => (PyVal.int (-(p.1 : Int)), p.2))
    else if c.isDigit then
      (parseNat (c :: rest)).map (fun p => (PyVal.int (p.1 : Int), p.2))
    else if c = 'T' then
      parseTrueKw rest
    else if c = 'F' then
      parseFalseKw rest
    else if c = 'N' then
      parseNoneKw rest
    else
      none

/-- Skip the spaces the printer emits after separators. -/
def skipSpaces (cs : List Char) : List Char := cs.dropWhile (fun c => c = ' ')

/-- Parse the comma-separated atoms of a nonempty list literal, consuming the
closing bracket.  The fuel bounds the number of elements. -/
def parseElems : Nat → List Char → List PyVal → Option (List PyVal × List Char)
  | 0, _, _ => none
  | fuel + 1, cs, acc =>
    match parseAtom cs with
    | none => none
    | some (v, rest) =>
      match rest with
      | ']' :: r => some (acc ++ [v], r)
      | ',' :: r => parseElems fuel (skipSpaces r) (acc ++ [v])
      | _ => none

/-- Parse a list literal after its opening bracket. -/
def parseListLit (cs : List Char) : Option (PyVal × List Char) :=
  match cs with
  | [] => none
  | c :: r =>
    if c = ']' then some (PyVal.list [], r)
    else (parseElems (cs.length + 2) (c :: r) []).map (fun p => (PyVal.list p.1, p.2))

/-- Insert a key into a parsed dict: Python dict literals keep the last
binding of a repeated key. -/
def dictInsert (kvs : List (String × PyVal)) (k : String) (v : PyVal) :
    List (String × PyVal) :=
  if kvs.any (fun kv => kv.1 == k) then
    kvs.map (fun kv => if kv.1 == k then (k, v) else kv)
  else
    kvs ++ [(k, v)]

/-- Parse a dict value: an atom or a list of atoms. -/
def parseInner (cs : List Char) : Option (PyVal × List Char) :=
  match cs with
  | [] => parseAtom []
  | c :: r => if c = '[' then parseListLit r else parseAtom (c :: r)

/-- Parse the comma-separated `'key': value` items of a nonempty dict
literal, consuming the closing brace.  The fuel bounds the number of
items. -/
def parseItems : Nat → List Char → List (String × PyVal) →
    Option (PyVal × List Char)
  | 0, _, _ => none
  | fuel + 1, cs, acc =>
    match cs with
    | '\x27' :: r =>
      match parseStrLit r with
      | none => none
      | some (k, r1) =>
        match r1 with
        | ':' :: r2 =>
          match parseInner (skipSpaces r2) with
          | none => none
          | some (v, r3) =>
            match r3 with
            | '\x7d' :: r4 => some (PyVal.dict (dictInsert acc k v), r4)
            | ',' :: r4 => parseItems fuel (skipSpaces r4) (dictInsert acc k v)
            | _ => none
        | _ => none
    | _ => none

/-- Parse a dict literal after its opening brace. -/
def parseDictLit (cs : List Char) : Option (PyVal × List Char) :=
  match cs with
  | [] => none
  | c :: r =>
    if c = '\x7d' then some (PyVal.dict [], r)
    else parseItems (cs.length + 2) (c :: r) []

/-- Parse one Python literal value. -/
def parseVal (cs : List Char) : Option (PyVal × List Char) :=
  match cs with
  | '\x7b' :: r => parseDictLit r
  | '[' :: r => parseListLit r
  | _ => parseAtom cs

/-- `ast.literal_eval` on the grammar fragment above: the whole input must
parse as one literal; anything else is the `ValueError`/`SyntaxError`
outcome, modelled as `none`. -/
def literalEval (s : String) : Option PyVal :=
  match parseVal s.data with
  | some (v, []) => some v
  | _ => none

/-! ## `validate_qr_code_data` (`utils.py` lines 100–115) -/

/-- Python `x == k` for a string `k`: only a string compares equal. -/
def pyEqStr (v : PyVal) (k : String) : Bool :=
  match v with
  | PyVal.str s => s == k
  | _ => false

/-- Substring test on character lists (Python `needle in haystack` for
strings). -/
def listIsInfixOf (needle hay : List Char) : Bool :=
  (List.range (hay.length + 1)).any (fun i => (hay.drop i).take needle.length == needle)

/-- Python `k in v`: key lookup for a dict, membership for a list, substring
for a string — and a `TypeError` for an int, bool or `None`, which are not
iterable. -/
def pyContains (k : String) (v : PyVal) : Except String Bool :=
  match v with
  | PyVal.dict kvs => Except.ok (kvs.any (fun kv => kv.1 == k))
  | PyVal.list xs => Except.ok (xs.any (fun x => pyEqStr x k))
  | PyVal.str s => Except.ok (listIsInfixOf k.data s.data)
  | _ => Except.error "TypeError"

/-- Python `v[k]` for a string key `k`: dict lookup; everything else the
codec can meet here raises `TypeError` (list/str indices must be integers,
ints are not subscriptable). -/
def pySubscript (v : PyVal) (k : String) : Except String PyVal :=
  match v with
  | PyVal.dict kvs =>
    match kvs.find? (fun kv => kv.1 == k) with
    | some kv => Except.ok kv.2
    | none => Except.error "KeyError"
  | _ => Except.error "TypeError"

/-- `required_keys` (`utils.py` line 105). -/
def requiredKeys : List String := ["user_id", "dog_ids", "timestamp", "type"]

/-- `all(key in parsed_data for key in required_keys)`, short-circuiting and
propagating a raised `TypeError`. -/
def allKeysIn : List String → PyVal → Except String Bool
  | [], _ => Except.ok true
  | k :: ks, v =>
    match pyContains k v with
    | Except.error e => Except.error e
    | Except.ok false => Except.ok false
    | Except.ok true => allKeysIn ks v

/-- Python `x != "dogrun_entry"` is false exactly for the equal string. -/
def isDogrunEntry (v : PyVal) : Bool := pyEqStr v "dogrun_entry"

/-- Outcome of `validate_qr_code_data`: the returned dict, the `None` return
(invalid payload), or an uncaught exception. -/
inductive QrResult where
  | valid (v : PyVal)
  | invalid
  | exn (name : String)

/-- `utils.validate_qr_code_data` (`utils.py` lines 100–115): parse with
`ast.literal_eval`, require the four keys, require `type == "dogrun_entry"`,
return the parsed payload; `ValueError`/`SyntaxError` from the parse are
caught and yield `None`, but a `TypeError` raised by the membership test or
the subscript is *not* in the `except` clause and escapes. -/
def validate_qr_code_data (data : String) : QrResult :=
  match literalEval data with
  | none => QrResult.invalid
  | some v =>
    match allKeysIn requiredKeys v with
    | Except.error e => QrResult.exn e
    | Except.ok false => QrResult.invalid
    | Except.ok true =>
      match pySubscript v "type" with
      | Except.error e => QrResult.exn e
      | Except.ok tv =>
        if isDogrunEntry tv then QrResult.valid v else QrResult.invalid

/-! ## `generate_qr_code_data` (`utils.py` lines 90–98) -/

/-- The decimal digit characters, as `str(int)` prints them. -/
def digitChar : Nat → Char
  | 0 => '0' | 1 => '1' | 2 => '2' | 3 => '3' | 4 => '4'
  | 5 => '5' | 6 => '6' | 7 => '7' | 8 => '8' | _ => '9'

/-- Digit-emitting loop for the decimal rendering, structurally recursive on
a fuel bound (any fuel above the number suffices). -/
def natCharsAux : Nat → Nat → List Char → List Char
  | 0, _, acc => acc
  | fuel + 1, n, acc =>
    if n < 10 then digitChar n :: acc
    else natCharsAux fuel (n / 10) (digitChar (n % 10) :: acc)

/-- The decimal rendering of a natural number, most significant digit
first. -/
def natChars (n : Nat) : List Char := natCharsAux (n + 1) n []

/-- `str(n)` for a Python int: a minus sign before the digits when
negative. -/
def intChars (n : Int) : List Char :=
  if n < 0 then '-' :: natChars n.natAbs else natChars n.natAbs

/-- The body of `str(list_of_ints)` after its opening bracket: elements
separated by `", "`, then the closing bracket. -/
def intListBody : List Int → List Char
  | [] => [']']
  | [d] => intChars d ++ [']']
  | d :: d2 :: rest => intChars d ++ ',' :: ' ' :: intListBody (d2 :: rest)

/-- `str(list_of_ints)`. -/
def intListChars (ds : List Int) : List Char := '[' :: intListBody ds

/-- `utils.generate_qr_code_data` (`utils.py` lines 90–98): builds the dict
`{"user_id": user_id, "dog_ids": dog_ids, "timestamp": now.isoformat(),
"type": "dogrun_entry"}` and returns `str(data)` — Python's textual dict
rendering, which prints the keys in insertion order, single-quotes the
strings, and separates items with `", "` and keys from values with `": "`.
The timestamp (the one impure input) is passed explicitly; `str(...)` is
rendered for payloads whose strings need no escaping, which holds of every
`isoformat()` output. -/
def generate_qr_code_data (user_id : Int) (dog_ids : List Int)
    (timestamp : String) : String :=
  String.mk
    (("\x7b\x27user_id\x27: ").data ++ intChars user_id ++
     (", \x27dog_ids\x27: ").data ++ intListChars dog_ids ++
     (", \x27timestamp\x27: \x27").data ++ timestamp.data ++
     ("\x27, \x27type\x27: \x27dogrun_entry\x27\x7d").data)

/-- A timestamp string the rendering above is exact for: no quote and no
backslash (true of every `datetime.isoformat()` output). -/
def tsSafe (ts : String) : Bool := ts.data.all strKeep

/-! ## C4 -/

/-- C4: the claim says decoding any input string either returns the payload
or the uniform invalid result and never raises.  But `ast.literal_eval("5")`
returns the int `5`, and the membership test `"user_id" in 5` then raises a
`TypeError` that the `except (ValueError, SyntaxError)` clause does not
catch; likewise for input `"None"`. -/
theorem validate_qr_raises_on_int_payload :
    validate_qr_code_data "5" = QrResult.exn "TypeError" ∧
    QrResult.exn "TypeError" ≠ QrResult.invalid ∧
    validate_qr_code_data "None" = QrResult.exn "TypeError" := by
  refine ⟨rfl, fun h => QrResult.noConfusion h, rfl⟩

/-! ## Round-trip lemmas for the entry codec (C5)

The proof follows the print-then-parse structure of verified scanners: a
characterisation of the digit rendering, a take/drop splitting lemma, then
one inversion lemma per grammar production, composed over the fixed shape of
the dict the encoder prints. -/

/-- Splitting `takeWhile`/`dropWhile` at a rendered prefix. -/
theorem takeWhile_append_all {p : Char → Bool} :
    ∀ (xs rest : List Char), (∀ c ∈ xs, p c = true) →
      (∀ c, rest.head? = some c → p c = false) →
      (xs ++ rest).takeWhile p = xs ∧ (xs ++ rest).dropWhile p = rest := by
  intro xs
  induction xs with
  | nil =>
    intro rest _ hrest
    cases rest with
    | nil => exact ⟨rfl, rfl⟩
    | cons r rs =>
      constructor
      · simp [List.takeWhile_cons, hrest r rfl]
      · simp [List.dropWhile_cons, hrest r rfl]
  | cons x xs ih =>
    intro rest hxs hrest
    have hx : p x = true := hxs x (List.mem_cons_self _ _)
    obtain ⟨h1, h2⟩ := ih rest (fun c hc => hxs c (List.mem_cons_of_mem _ hc)) hrest
    constructor
    · simp [List.takeWhile_cons, hx, h1]
    · simp [List.dropWhile_cons, hx, h2]

/-- A digit character differs from any non-digit character. -/
theorem isDigit_char_ne (c d : Char) (h : c.isDigit = true)
    (hd : d.isDigit = false) : c ≠ d := by
  intro he
  subst he
  rw [h] at hd
  exact Bool.noConfusion hd

/-- Every `digitChar` output is a digit character. -/
theorem isDigit_digitChar (d : Nat) : (digitChar d).isDigit = true := by
  rcases d with _ | _ | _ | _ | _ | _ | _ | _ | _ | n <;> rfl

/-- `digitChar` inverts to its digit for digits below 10. -/
theorem digitVal_digitChar (d : Nat) (h : d < 10) :
    digitVal (digitChar d) = d := by
  interval_cases d <;> rfl

/-- Appending one digit multiplies the accumulated value by ten. -/
theorem digitsToNat_snoc (ds : List Char) (c : Char) :
    digitsToNat (ds ++ [c]) = 10 * digitsToNat ds + digitVal c := by
  simp [digitsToNat, List.foldl_append]

/-- The digit-emitting loop renders exactly the decimal digits of its input:
nonempty, all digits, valued back by `digitsToNat`. -/
theorem natCharsAux_spec :
    ∀ (fuel n : Nat) (acc : List Char), n < fuel →
      ∃ ds : List Char, natCharsAux fuel n acc = ds ++ acc ∧ ds ≠ [] ∧
        (∀ c ∈ ds, c.isDigit = true) ∧ digitsToNat ds = n := by
  intro fuel
  induction fuel with
  | zero => intro n acc h; omega
  | succ fuel ih =>
    intro n acc hn
    by_cases h10 : n < 10
    · refine ⟨[digitChar n], by simp [natCharsAux, h10], by simp, ?_, ?_⟩
      · intro c hc
        simp only [List.mem_singleton] at hc
        subst hc
        exact isDigit_digitChar n
      · simp [digitsToNat, digitVal_digitChar n h10]
    · obtain ⟨ds, hds, hne, hdig, hval⟩ :=
        ih (n / 10) (digitChar (n % 10) :: acc) (by omega)
      refine ⟨ds ++ [digitChar (n % 10)], ?_, by simp [hne], ?_, ?_⟩
      · rw [show natCharsAux (fuel + 1) n acc =
            natCharsAux fuel (n / 10) (digitChar (n % 10) :: acc) from by
          simp [natCharsAux, h10]]
        rw [hds, List.append_assoc, List.singleton_append]
      · intro c hc
        rcases List.mem_append.mp hc with h | h
        · exact hdig c h
        · simp only [List.mem_singleton] at h
          subst h
          exact isDigit_digitChar _
      · rw [digitsToNat_snoc, hval, digitVal_digitChar _ (Nat.mod_lt _ (by omega))]
        omega

/-- The decimal rendering of `n` is nonempty, all digits, and valued `n`. -/
theorem natChars_spec (n : Nat) :
    natChars n ≠ [] ∧ (∀ c ∈ natChars n, c.isDigit = true) ∧
      digitsToNat (natChars n) = n := by
  obtain ⟨ds, hds, hne, hdig, hval⟩ := natCharsAux_spec (n + 1) n [] (by omega)
  have h : natChars n = ds := by
    unfold natChars
    rw [hds, List.append_nil]
  rw [h]
  exact ⟨hne, hdig, hval⟩

/-- Parsing the rendered digits of `n` followed by a non-digit returns `n`
and stops at the non-digit. -/
theorem parseNat_natChars (n : Nat) (rest : List Char)
    (hrest : ∀ c, rest.head? = some c → c.isDigit = false) :
    parseNat (natChars n ++ rest) = some (n, rest) := by
  obtain ⟨hne, hdig, hval⟩ := natChars_spec n
  obtain ⟨ht, hd⟩ := takeWhile_append_all (natChars n) rest hdig hrest
  unfold parseNat
  rw [ht, hd]
  have hie : (natChars n).isEmpty = false := by
    cases hnc : natChars n with
    | nil => exact absurd hnc hne
    | cons a l => rfl
  rw [hie, if_neg (by simp), hval]

/-- The rendering of an int starts with a minus sign or a digit. -/
theorem intChars_head (n : Int) :
    ∃ c cs, intChars n = c :: cs ∧ (c = '-' ∨ c.isDigit = true) := by
  obtain ⟨hne, hdig, _⟩ := natChars_spec n.natAbs
  cases hnc : natChars n.natAbs with
  | nil => exact absurd hnc hne
  | cons a l =>
    have ha : a.isDigit = true := hdig a (by rw [hnc]; exact List.mem_cons_self _ _)
    unfold intChars
    by_cases hn : n < 0
    · exact ⟨'-', natChars n.natAbs, by rw [if_pos hn], Or.inl rfl⟩
    · exact ⟨a, l, by rw [if_neg hn, hnc], Or.inr ha⟩

/-- Parsing the rendering of an int followed by a non-digit returns the int
and stops at the non-digit. -/
theorem parseAtom_intChars (n : Int) (rest : List Char)
    (hrest : ∀ c, rest.head? = some c → c.isDigit = false) :
    parseAtom (intChars n ++ rest) = some (PyVal.int n, rest) := by
  unfold intChars
  by_cases hn : n < 0
  · rw [if_pos hn, List.cons_append]
    show (parseNat (natChars n.natAbs ++ rest)).map
        (fun p => (PyVal.int (-(p.1 : Int)), p.2)) = some (PyVal.int n, rest)
    rw [parseNat_natChars _ _ hrest]
    simp only [Option.map_some']
    have habs : -((n.natAbs : Int)) = n := by omega
    rw [habs]
  · rw [if_neg hn]
    obtain ⟨hne, hdig, _⟩ := natChars_spec n.natAbs
    cases hnc : natChars n.natAbs with
    | nil => exact absurd hnc hne
    | cons a l =>
      have ha : a.isDigit = true := hdig a (by rw [hnc]; exact List.mem_cons_self _ _)
      rw [List.cons_append, parseAtom.eq_2]
      rw [if_neg (isDigit_char_ne a '\x27' ha (by decide)),
        if_neg (isDigit_char_ne a '-' ha (by decide)), if_pos ha,
        ← List.cons_append, ← hnc, parseNat_natChars _ _ hrest]
      simp only [Option.map_some']
      have habs : ((n.natAbs : Int)) = n := by omega
      rw [habs]

/-- Parsing a rendered string literal body (no quote, no backslash) returns
the string and stops after the closing quote. -/
theorem parseStrLit_safe (s : String) (rest : List Char)
    (hs : ∀ c ∈ s.data, strKeep c = true) :
    parseStrLit (s.data ++ '\x27' :: rest) = some (s, rest) := by
  have hrest : ∀ c, ('\x27' :: rest).head? = some c → strKeep c = false := by
    intro c hc
    simp only [List.head?_cons, Option.some.injEq] at hc
    subst hc
    rfl
  obtain ⟨ht, hd⟩ := takeWhile_append_all s.data ('\x27' :: rest) hs hrest
  unfold parseStrLit
  rw [ht, hd]
  show (if ('\x27' : Char) = '\x27' then some (String.mk s.data, rest) else none) =
    some (s, rest)
  rw [if_pos rfl]

/-- Parsing a quoted rendered string returns the string value. -/
theorem parseAtom_str (s : String) (rest : List Char)
    (hs : ∀ c ∈ s.data, strKeep c = true) :
    parseAtom ('\x27' :: (s.data ++ '\x27' :: rest)) = some (PyVal.str s, rest) := by
  show (parseStrLit (s.data ++ '\x27' :: rest)).map (fun p => (PyVal.str p.1, p.2)) =
    some (PyVal.str s, rest)
  rw [parseStrLit_safe s rest hs]
  rfl

/-- `skipSpaces` stops at the rendering of an int. -/
theorem skipSpaces_intChars (n : Int) (rest : List Char) :
    skipSpaces (intChars n ++ rest) = intChars n ++ rest := by
  obtain ⟨c, cs, hc, hcase⟩ := intChars_head n
  have hcne : ¬(c = ' ') := by
    rcases hcase with rfl | hdig
    · decide
    · exact isDigit_char_ne c ' ' hdig (by decide)
  rw [hc, List.cons_append]
  simp [skipSpaces, List.dropWhile_cons, hcne]

/-- The rendered body of a nonempty int list starts with a minus sign or a
digit. -/
theorem intListBody_cons_head (d : Int) (t : List Int) :
    ∃ c bs, intListBody (d :: t) = c :: bs ∧ (c = '-' ∨ c.isDigit = true) := by
  obtain ⟨c, cs, hc, hcase⟩ := intChars_head d
  cases t with
  | nil => exact ⟨c, cs ++ [']'], by rw [show intListBody [d] = intChars d ++ [']'] from rfl, hc, List.cons_append], hcase⟩
  | cons d2 t2 =>
    exact ⟨c, cs ++ ',' :: ' ' :: intListBody (d2 :: t2),
      by rw [show intListBody (d :: d2 :: t2) = intChars d ++ ',' :: ' ' :: intListBody (d2 :: t2) from rfl, hc, List.cons_append], hcase⟩

/-- `skipSpaces` stops at the rendered body of a nonempty int list. -/
theorem skipSpaces_intListBody (d : Int) (t : List Int) (rest : List Char) :
    skipSpaces (intListBody (d :: t) ++ rest) = intListBody (d :: t) ++ rest := by
  obtain ⟨c, bs, hb, hcase⟩ := intListBody_cons_head d t
  have hcne : ¬(c = ' ') := by
    rcases hcase with rfl | hdig
    · decide
    · exact isDigit_char_ne c ' ' hdig (by decide)
  rw [hb, List.cons_append]
  simp [skipSpaces, List.dropWhile_cons, hcne]

/-- Each rendered element takes at least one character. -/
theorem intListBody_length : ∀ ds : List Int, ds.length ≤ (intListBody ds).length := by
  intro ds
  induction ds with
  | nil => simp [intListBody]
  | cons d t ih =>
    cases t with
    | nil =>
      rw [show intListBody [d] = intChars d ++ [']'] from rfl]
      simp
    | cons d2 t2 =>
      rw [show intListBody (d :: d2 :: t2) = intChars d ++ ',' :: ' ' :: intListBody (d2 :: t2) from rfl]
      simp only [List.length_append, List.length_cons]
      have h2 := ih
      simp only [List.length_cons] at h2 ⊢
      omega

/-- The element loop of the list parser inverts the rendering of a nonempty
int list, consuming the closing bracket. -/
theorem parseElems_body :
    ∀ (t : List Int) (d : Int) (acc : List PyVal) (rest : List Char) (fuel : Nat),
      t.length + 1 ≤ fuel →
      parseElems fuel (intListBody (d :: t) ++ rest) acc =
        some (acc ++ (d :: t).map PyVal.int, rest) := by
  intro t
  induction t with
  | nil =>
    intro d acc rest fuel hfuel
    obtain ⟨f, rfl⟩ : ∃ f, fuel = f + 1 := ⟨fuel - 1, by omega⟩
    rw [show intListBody [d] = intChars d ++ [']'] from rfl, List.append_assoc]
    simp only [parseElems]
    rw [show ([']'] : List Char) ++ rest = ']' :: rest from rfl,
      parseAtom_intChars d (']' :: rest) (by
        intro c hc
        simp only [List.head?_cons, Option.some.injEq] at hc
        subst hc
        rfl)]
    rfl
  | cons d2 t2 ih =>
    intro d acc rest fuel hfuel
    obtain ⟨f, rfl⟩ : ∃ f, fuel = f + 1 := ⟨fuel - 1, by omega⟩
    rw [show intListBody (d :: d2 :: t2) = intChars d ++ ',' :: ' ' :: intListBody (d2 :: t2) from rfl,
      List.append_assoc, List.cons_append, List.cons_append]
    simp only [parseElems]
    rw [parseAtom_intChars d (',' :: ' ' :: (intListBody (d2 :: t2) ++ rest)) (by
      intro c hc
      simp only [List.head?_cons, Option.some.injEq] at hc
      subst hc
      rfl)]
    show parseElems f (skipSpaces (' ' :: (intListBody (d2 :: t2) ++ rest)))
        (acc ++ [PyVal.int d]) = some (acc ++ (d :: d2 :: t2).map PyVal.int, rest)
    rw [show skipSpaces (' ' :: (intListBody (d2 :: t2) ++ rest)) =
        skipSpaces (intListBody (d2 :: t2) ++ rest) from rfl,
      skipSpaces_intListBody d2 t2 rest,
      ih d2 (acc ++ [PyVal.int d]) rest f (by
        simp only [List.length_cons] at hfuel ⊢
        omega)]
    simp

/-- The list parser inverts the rendering of an int list. -/
theorem parseListLit_intList (ds : List Int) (rest : List Char) :
    parseListLit (intListBody ds ++ rest) = some (PyVal.list (ds.map PyVal.int), rest) := by
  cases ds with
  | nil => rfl
  | cons d t =>
    obtain ⟨c, bs, hb, hcase⟩ := intListBody_cons_head d t
    have hcne : ¬(c = ']') := by
      rcases hcase with rfl | hdig
      · decide
      · exact isDigit_char_ne c ']' hdig (by decide)
    rw [hb, List.cons_append]
    simp only [parseListLit]
    rw [if_neg hcne, ← List.cons_append, ← hb,
      parseElems_body t d [] rest _ (by
        have h1 := intListBody_length (d :: t)
        simp only [List.length_cons] at h1 ⊢
        simp only [List.length_append]
        omega)]
    simp

/-- A dict value that renders as an int parses with the atom parser. -/
theorem parseInner_intChars (n : Int) (rest : List Char)
    (hrest : ∀ c, rest.head? = some c → c.isDigit = false) :
    parseInner (intChars n ++ rest) = some (PyVal.int n, rest) := by
  obtain ⟨c, cs, hc, hcase⟩ := intChars_head n
  have hcne : ¬(c = '[') := by
    rcases hcase with rfl | hdig
    · decide
    · exact isDigit_char_ne c '[' hdig (by decide)
  rw [hc, List.cons_append]
  simp only [parseInner]
  rw [if_neg hcne, ← List.cons_append, ← hc]
  exact parseAtom_intChars n rest hrest

/-- A dict value that renders as an int list parses with the list parser. -/
theorem parseInner_intList (ds : List Int) (rest : List Char) :
    parseInner ('[' :: (intListBody ds ++ rest)) =
      some (PyVal.list (ds.map PyVal.int), rest) := by
  show parseListLit (intListBody ds ++ rest) = _
  exact parseListLit_intList ds rest

/-- A dict value that renders as a safe quoted string parses with the atom
parser. -/
theorem parseInner_str (s : String) (rest : List Char)
    (hs : ∀ c ∈ s.data, strKeep c = true) :
    parseInner ('\x27' :: (s.data ++ '\x27' :: rest)) = some (PyVal.str s, rest) := by
  show parseAtom ('\x27' :: (s.data ++ '\x27' :: rest)) = _
  exact parseAtom_str s rest hs

/-- One `'key': value` item of the dict parser, continued by a comma: parses
the rendered key, skips the printed space, parses the value with the inner
parser, records the binding, and loops on the remainder. -/
theorem parseItems_item_comma (fuel : Nat) (k : String)
    (hk : ∀ c ∈ k.data, strKeep c = true)
    (vcs : List Char) (v : PyVal) (r4 : List Char) (acc : List (String × PyVal))
    (hsp : skipSpaces vcs = vcs)
    (hv : parseInner vcs = some (v, ',' :: r4)) :
    parseItems (fuel + 1) ('\x27' :: (k.data ++ '\x27' :: ':' :: ' ' :: vcs)) acc =
      parseItems fuel (skipSpaces r4) (dictInsert acc k v) := by
  simp only [parseItems]
  rw [parseStrLit_safe k _ hk]
  show (match parseInner (skipSpaces (' ' :: vcs)) with
    | none => none
    | some (v, r3) =>
      match r3 with
      | '\x7d' :: r4 => some (PyVal.dict (dictInsert acc k v), r4)
      | ',' :: r4 => parseItems fuel (skipSpaces r4) (dictInsert acc k v)
      | _ => none) = parseItems fuel (skipSpaces r4) (dictInsert acc k v)
  rw [show skipSpaces (' ' :: vcs) = skipSpaces vcs from rfl, hsp, hv]
  rfl

/-- The last `'key': value` item of the dict parser, closed by the brace:
returns the accumulated dict and the remainder after the brace. -/
theorem parseItems_item_close (fuel : Nat) (k : String)
    (hk : ∀ c ∈ k.data, strKeep c = true)
    (vcs : List Char) (v : PyVal) (r4 : List Char) (acc : List (String × PyVal))
    (hsp : skipSpaces vcs = vcs)
    (hv : parseInner vcs = some (v, '\x7d' :: r4)) :
    parseItems (fuel + 1) ('\x27' :: (k.data ++ '\x27' :: ':' :: ' ' :: vcs)) acc =
      some (PyVal.dict (dictInsert acc k v), r4) := by
  simp only [parseItems]
  rw [parseStrLit_safe k _ hk]
  show (match parseInner (skipSpaces (' ' :: vcs)) with
    | none => none
    | some (v, r3) =>
      match r3 with
      | '\x7d' :: r4 => some (PyVal.dict (dictInsert acc k v), r4)
      | ',' :: r4 => parseItems fuel (skipSpaces r4) (dictInsert acc k v)
      | _ => none) = some (PyVal.dict (dictInsert acc k v), r4)
  rw [show skipSpaces (' ' :: vcs) = skipSpaces vcs from rfl, hsp, hv]
  rfl

/-- One dict item whose value renders as an int, followed by more items. -/
theorem parseItems_qr_int (f : Nat) (k : String)
    (hk : ∀ c ∈ k.data, strKeep c = true) (n : Int) (X : List Char)
    (acc : List (String × PyVal)) :
    parseItems (f + 1)
        ('\x27' :: (k.data ++ '\x27' :: ':' :: ' ' :: (intChars n ++ ',' :: ' ' :: '\x27' :: X))) acc =
      parseItems f ('\x27' :: X) (dictInsert acc k (PyVal.int n)) := by
  rw [parseItems_item_comma f k hk (intChars n ++ ',' :: ' ' :: '\x27' :: X)
    (PyVal.int n) (' ' :: '\x27' :: X) acc
    (skipSpaces_intChars n (',' :: ' ' :: '\x27' :: X))
    (parseInner_intChars n (',' :: ' ' :: '\x27' :: X) (by
      intro c hc
      simp only [List.head?_cons, Option.some.injEq] at hc
      subst hc
      rfl))]
  rfl

/-- One dict item whose value renders as an int list, followed by more
items. -/
theorem parseItems_qr_list (f : Nat) (k : String)
    (hk : ∀ c ∈ k.data, strKeep c = true) (ds : List Int) (X : List Char)
    (acc : List (String × PyVal)) :
    parseItems (f + 1)
        ('\x27' :: (k.data ++ '\x27' :: ':' :: ' ' ::
          ('[' :: (intListBody ds ++ ',' :: ' ' :: '\x27' :: X)))) acc =
      parseItems f ('\x27' :: X) (dictInsert acc k (PyVal.list (ds.map PyVal.int))) := by
  rw [parseItems_item_comma f k hk ('[' :: (intListBody ds ++ ',' :: ' ' :: '\x27' :: X))
    (PyVal.list (ds.map PyVal.int)) (' ' :: '\x27' :: X) acc rfl
    (parseInner_intList ds (',' :: ' ' :: '\x27' :: X))]
  rfl

/-- One dict item whose value renders as a safe string, followed by more
items. -/
theorem parseItems_qr_str (f : Nat) (k : String)
    (hk : ∀ c ∈ k.data, strKeep c = true) (s : String)
    (hs : ∀ c ∈ s.data, strKeep c = true) (X : List Char)
    (acc : List (String × PyVal)) :
    parseItems (f + 1)
        ('\x27' :: (k.data ++ '\x27' :: ':' :: ' ' ::
          ('\x27' :: (s.data ++ '\x27' :: ',' :: ' ' :: '\x27' :: X)))) acc =
      parseItems f ('\x27' :: X) (dictInsert acc k (PyVal.str s)) := by
  rw [parseItems_item_comma f k hk ('\x27' :: (s.data ++ '\x27' :: ',' :: ' ' :: '\x27' :: X))
    (PyVal.str s) (' ' :: '\x27' :: X) acc rfl
    (parseInner_str s (',' :: ' ' :: '\x27' :: X) hs)]
  rfl

/-- The final dict item, a safe string value closed by the brace. -/
theorem parseItems_qr_last (f : Nat) (k : String)
    (hk : ∀ c ∈ k.data, strKeep c = true) (s : String)
    (hs : ∀ c ∈ s.data, strKeep c = true) (acc : List (String × PyVal)) :
    parseItems (f + 1)
        ('\x27' :: (k.data ++ '\x27' :: ':' :: ' ' ::
          ('\x27' :: (s.data ++ '\x27' :: '\x7d' :: [])))) acc =
      some (PyVal.dict (dictInsert acc k (PyVal.str s)), []) := by
  rw [parseItems_item_close f k hk ('\x27' :: (s.data ++ '\x27' :: '\x7d' :: []))
    (PyVal.str s) [] acc rfl
    (parseInner_str s ('\x7d' :: []) hs)]

/-- The item loop inverts the full rendered payload, for any fuel of at
least four. -/
theorem parseItems_qr (uid : Int) (ds : List Int) (ts : String)
    (hts : ∀ c ∈ ts.data, strKeep c = true) :
    ∀ fuel, 4 ≤ fuel →
      parseItems fuel
        ('\x27' :: ("user_id".data ++ '\x27' :: ':' :: ' ' ::
          (intChars uid ++ ',' :: ' ' :: '\x27' ::
            ("dog_ids".data ++ '\x27' :: ':' :: ' ' ::
              ('[' :: (intListBody ds ++ ',' :: ' ' :: '\x27' ::
                ("timestamp".data ++ '\x27' :: ':' :: ' ' ::
                  ('\x27' :: (ts.data ++ '\x27' :: ',' :: ' ' :: '\x27' ::
                    ("type".data ++ '\x27' :: ':' :: ' ' ::
                      ('\x27' :: ("dogrun_entry".data ++ '\x27' :: '\x7d' :: [])))))))))))) [] =
        some (PyVal.dict
          [("user_id", PyVal.int uid), ("dog_ids", PyVal.list (ds.map PyVal.int)),
           ("timestamp", PyVal.str ts), ("type", PyVal.str "dogrun_entry")], []) := by
  intro fuel hfuel
  obtain ⟨f, rfl⟩ : ∃ f, fuel = f + 1 + 1 + 1 + 1 := ⟨fuel - 4, by omega⟩
  rw [parseItems_qr_int (f + 1 + 1 + 1) "user_id" (by decide) uid]
  rw [parseItems_qr_list (f + 1 + 1) "dog_ids" (by decide) ds]
  rw [parseItems_qr_str (f + 1) "timestamp" (by decide) ts hts]
  rw [parseItems_qr_last f "type" (by decide) "dogrun_entry" (by decide)]
  rfl

/-- A brace opens a dict literal. -/
theorem parseVal_dict (R : List Char) : parseVal ('\x7b' :: R) = parseDictLit R := rfl

/-- A quote after the brace enters the item loop with the length-derived
fuel. -/
theorem parseDictLit_items (R : List Char) :
    parseDictLit ('\x27' :: R) = parseItems (R.length + 3) ('\x27' :: R) [] := by
  simp only [parseDictLit]
  rw [if_neg (by decide), List.length_cons]

/-! ## C5 -/

/-- C5: encode-then-decode round-trips.  For every `user_id`, every list of
`dog_ids`, and every timestamp free of quotes and backslashes (as every
`isoformat()` output is), decoding the encoder's payload succeeds and
returns the dict with `user_id` and `dog_ids` unchanged, the `dog_ids` list
in its original order. -/
theorem qr_roundtrip (uid : Int) (ds : List Int) (ts : String)
    (hts : tsSafe ts = true) :
    validate_qr_code_data (generate_qr_code_data uid ds ts) =
      QrResult.valid (PyVal.dict
        [("user_id", PyVal.int uid), ("dog_ids", PyVal.list (ds.map PyVal.int)),
         ("timestamp", PyVal.str ts), ("type", PyVal.str "dogrun_entry")]) := by
  have hts' : ∀ c ∈ ts.data, strKeep c = true := by
    unfold tsSafe at hts
    exact fun c hc => List.all_eq_true.mp hts c hc
  have hL : (generate_qr_code_data uid ds ts).data =
      '\x7b' :: '\x27' :: ("user_id".data ++ '\x27' :: ':' :: ' ' ::
        (intChars uid ++ ',' :: ' ' :: '\x27' ::
          ("dog_ids".data ++ '\x27' :: ':' :: ' ' ::
            ('[' :: (intListBody ds ++ ',' :: ' ' :: '\x27' ::
              ("timestamp".data ++ '\x27' :: ':' :: ' ' ::
                ('\x27' :: (ts.data ++ '\x27' :: ',' :: ' ' :: '\x27' ::
                  ("type".data ++ '\x27' :: ':' :: ' ' ::
                    ('\x27' :: ("dogrun_entry".data ++ '\x27' :: '\x7d' :: []))))))))))) := by
    simp only [generate_qr_code_data, intListChars, List.append_assoc]
    rfl
  have hparse : literalEval (generate_qr_code_data uid ds ts) =
      some (PyVal.dict
        [("user_id", PyVal.int uid), ("dog_ids", PyVal.list (ds.map PyVal.int)),
         ("timestamp", PyVal.str ts), ("type", PyVal.str "dogrun_entry")]) := by
    unfold literalEval
    rw [hL, parseVal_dict, parseDictLit_items]
    rw [parseItems_qr uid ds ts hts' _ (by
      have h7 : ("user_id".data).length = 7 := rfl
      simp only [List.length_append, List.length_cons, h7]
      omega)]
  unfold validate_qr_code_data
  rw [hparse]
  rfl

/-- Witness for C5 at a concrete encoder input. -/
theorem qr_roundtrip_witness :
    tsSafe "2024-06-01T09:30:00" = true ∧
    validate_qr_code_data (generate_qr_code_data 42 [3, 1, 2] "2024-06-01T09:30:00") =
      QrResult.valid (PyVal.dict
        [("user_id", PyVal.int 42),
         ("dog_ids", PyVal.list [PyVal.int 3, PyVal.int 1, PyVal.int 2]),
         ("timestamp", PyVal.str "2024-06-01T09:30:00"),
         ("type", PyVal.str "dogrun_entry")]) :=
  ⟨rfl, qr_roundtrip 42 [3, 1, 2] "2024-06-01T09:30:00" rfl⟩

/-! ## `validate_weight` (`utils.py` lines 153–159)

`float(...)` is modelled as an exact-rational parser for Python's decimal
float syntax (optional surrounding whitespace, optional sign, digits with an
optional fraction, optional exponent); `inf`/`nan`/underscore forms are
outside the model and parse as failures, and IEEE-754 rounding is abstracted
to exact rationals — neither affects any theorem below. -/

/-- Strip leading and trailing whitespace, as `float(str)` does. -/
def trimWs (cs : List Char) : List Char :=
  ((cs.dropWhile Char.isWhitespace).reverse.dropWhile Char.isWhitespace).reverse

/-- An optional leading sign. -/
def parseSign : List Char → Int × List Char
  | '+' :: r => (1, r)
  | '-' :: r => (-1, r)
  | cs => (1, cs)

/-- An exact parsed float value, `num / 10 ^ den10`.  Exact powers of ten
keep every quantity an integer, so the parser evaluates inside the kernel;
`ratOfVal` gives the rational value. -/
structure PyFloatVal where
  num : Int
  den10 : Nat
deriving DecidableEq

/-- The rational value of a parsed float. -/
def ratOfVal (v : PyFloatVal) : ℚ := (v.num : ℚ) / (10 : ℚ) ^ v.den10

/-- The mantissa: digits with an optional dot and fraction digits; at least
one digit overall.  Returns the combined digits and the fraction length. -/
def pyFloatMantissa (cs : List Char) : Option (Int × Nat × List Char) :=
  match cs.dropWhile Char.isDigit with
  | '.' :: r =>
    if (cs.takeWhile Char.isDigit).isEmpty && (r.takeWhile Char.isDigit).isEmpty then
      none
    else
      some ((digitsToNat (cs.takeWhile Char.isDigit) : Int) *
          10 ^ (r.takeWhile Char.isDigit).length +
          (digitsToNat (r.takeWhile Char.isDigit) : Int),
        (r.takeWhile Char.isDigit).length, r.dropWhile Char.isDigit)
  | cs1 =>
    if (cs.takeWhile Char.isDigit).isEmpty then none
    else some ((digitsToNat (cs.takeWhile Char.isDigit) : Int), 0, cs1)

/-- An optional exponent part: `e`/`E`, optional sign, digits. -/
def pyFloatExpPart : List Char → Option (Int × List Char)
  | [] => some (0, [])
  | c :: r =>
    if c = 'e' ∨ c = 'E' then
      match parseSign r with
      | (sgn, r1) =>
        if (r1.takeWhile Char.isDigit).isEmpty then none
        else some (sgn * (digitsToNat (r1.takeWhile Char.isDigit) : Int),
          r1.dropWhile Char.isDigit)
    else some (0, c :: r)

/-- `float(s)` as an exact rational value; `none` is Python's `ValueError`. -/
def pyFloat (s : String) : Option PyFloatVal :=
  match parseSign (trimWs s.data) with
  | (sgn, cs0) =>
    match pyFloatMantissa cs0 with
    | none => none
    | some (m, k, cs1) =>
      match pyFloatExpPart cs1 with
      | none => none
      | some (e, cs2) =>
        if cs2.isEmpty then
          if 0 ≤ e then some ⟨sgn * m * 10 ^ e.toNat, k⟩
          else some ⟨sgn * m, k + (-e).toNat⟩
        else none

/-- `weight.replace('kg', '')`: remove every (non-overlapping, left-to-right)
occurrence of the substring `kg`. -/
def removeKg : List Char → List Char
  | [] => []
  | 'k' :: 'g' :: rest => removeKg rest
  | c :: rest => c :: removeKg rest

/-- The range check `0.1 <= weight_value <= 100.0`, stated exactly on the
parsed value by cross-multiplication with its positive denominator. -/
def inWeightRange (v : PyFloatVal) : Bool :=
  decide ((10 ^ v.den10 : Int) ≤ 10 * v.num) &&
  decide (v.num ≤ 100 * (10 ^ v.den10 : Int))

/-- The body of `utils.validate_weight` before its `try`/`except`:
`weight_value = float(weight.replace('kg', ''))`, then the range check
`0.1 <= weight_value <= 100.0`. -/
def validate_weight_body (weight : String) : Except String Bool :=
  match pyFloat (String.mk (removeKg weight.data)) with
  | none => Except.error "ValueError"
  | some v => Except.ok (inWeightRange v)

/-- `utils.validate_weight` (`utils.py` lines 153–159): the body wrapped in
`except (ValueError, AttributeError): return False`. -/
def validate_weight (weight : String) : Except String Bool :=
  match validate_weight_body weight with
  | Except.error e =>
    if e = "ValueError" ∨ e = "AttributeError" then Except.ok false
    else Except.error e
  | Except.ok b => Except.ok b

/-- `s.endsWith "kg"` on the character list. -/
def endsWithKg (weight : String) : Bool :=
  match weight.data.reverse with
  | 'g' :: 'k' :: _ => true
  | _ => false

/-- The claim's reading of `validate_weight`, modelled from the spec's words
(`parse s as a decimal number after stripping a unit suffix`): strip one
trailing `kg`, then parse and range-check. -/
def validateWeightSpec (weight : String) : Bool :=
  match pyFloat (if endsWithKg weight then
      String.mk (weight.data.take (weight.data.length - 2)) else weight) with
  | none => false
  | some v => inWeightRange v

/-! ## C9 -/

/-- C9 counterexample: on `"5kg0"` the code removes the *embedded* `kg`
(`replace` removes every occurrence, not just a suffix), parses `"50"` and
returns true, while the claim's suffix-stripping reading leaves `"5kg0"`,
which does not parse as a number, hence false. -/
theorem validate_weight_counterexample :
    validate_weight "5kg0" = Except.ok true ∧
    validateWeightSpec "5kg0" = false ∧
    endsWithKg "5kg0" = false :=
  ⟨rfl, rfl, rfl⟩

/-- The integer cross-multiplied range check is exactly the rational
interval `[0.1, 100]` on the parsed value. -/
theorem inWeightRange_iff (v : PyFloatVal) :
    inWeightRange v = true ↔
      ((1 : ℚ)/10 ≤ ratOfVal v ∧ ratOfVal v ≤ 100) := by
  unfold inWeightRange ratOfVal
  rw [Bool.and_eq_true, decide_eq_true_iff, decide_eq_true_iff]
  have hd : (0 : ℚ) < (10 : ℚ) ^ v.den10 := pow_pos (by norm_num) _
  constructor
  · rintro ⟨h1, h2⟩
    have h1' : ((10 : ℚ) ^ v.den10) ≤ 10 * (v.num : ℚ) := by exact_mod_cast h1
    have h2' : (v.num : ℚ) ≤ 100 * (10 : ℚ) ^ v.den10 := by exact_mod_cast h2
    constructor
    · rw [div_le_div_iff₀ (by norm_num) hd]
      linarith
    · rw [div_le_iff₀ hd]
      linarith
  · rintro ⟨h1, h2⟩
    rw [div_le_div_iff₀ (by norm_num) hd] at h1
    rw [div_le_iff₀ hd] at h2
    constructor
    · exact_mod_cast (by linarith : ((10 : ℚ) ^ v.den10) ≤ 10 * (v.num : ℚ))
    · exact_mod_cast (by linarith : (v.num : ℚ) ≤ 100 * (10 : ℚ) ^ v.den10)

/-- C9 (amended): `validate_weight` never raises — every input yields a
boolean — and it returns true exactly when the input with **every**
occurrence of the substring `kg` removed (not just a unit suffix, which is
what the claim says and what `validateWeightSpec` renders) parses as a
decimal number whose value lies in the closed interval `[0.1, 100]`. -/
theorem validate_weight_total_and_range :
    (∀ s : String, ∃ b, validate_weight s = Except.ok b) ∧
    (∀ s : String, validate_weight s = Except.ok true ↔
      ∃ v, pyFloat (String.mk (removeKg s.data)) = some v ∧
        (1 : ℚ)/10 ≤ ratOfVal v ∧ ratOfVal v ≤ 100) := by
  constructor
  · intro s
    unfold validate_weight validate_weight_body
    cases pyFloat (String.mk (removeKg s.data)) with
    | none => exact ⟨false, rfl⟩
    | some v => exact ⟨inWeightRange v, rfl⟩
  · intro s
    unfold validate_weight validate_weight_body
    cases h : pyFloat (String.mk (removeKg s.data)) with
    | none =>
      constructor
      · intro hb
        have hb' : (Except.ok false : Except String Bool) = Except.ok true := hb
        injection hb' with he
        exact Bool.noConfusion he
      · rintro ⟨v, hv, _, _⟩
        exact Option.noConfusion hv
    | some v =>
      constructor
      · intro hb
        have hb' : (Except.ok (inWeightRange v) : Except String Bool) = Except.ok true := hb
        injection hb' with he
        exact ⟨v, rfl, (inWeightRange_iff v).mp he⟩
      · rintro ⟨v', hv', h1, h2⟩
        injection hv' with he
        subst he
        show (Except.ok (inWeightRange v) : Except String Bool) = Except.ok true
        rw [(inWeightRange_iff v).mpr ⟨h1, h2⟩]
